import Mathlib

/-!
Verification of the external-payload reconciliation layer of the
`leks-forever/web-translator` model-convert pipeline.

The development shallowly embeds the relevant parts of
`model-convert/merge_lowmem.py` (the low-memory decoder merge:
`build_ext_map`, `restore_ext_refs`, the fast/general payload
reconciliation paths and the pipeline's stage gating) and of
`model-convert/merge_and_upload.py` (the `_patched_to_array`
fingerprint substitution around the structural merge call).

Modelling conventions:
- file contents are `List Nat` byte sequences;
- an ONNX `StringStringEntryProto` is a `KV` record; an initializer's
  repeated `external_data` field is a `List KV`;
- a Python dict built from such entries keeps the first occurrence of a
  key for its position and the last occurrence for its value;
- Python `str(n)` / `int(s)` on the canonical decimal encodings used by
  the script are modelled by the executable pair `pyStrNat` / `pyIntStr`
  (`pyIntStr` is totalised with value 0 on non-numeric input, as the
  script only ever parses decimal strings it or ONNX wrote);
- `f.seek(off); f.read(len)` on a file holding bytes `b` is
  `(b.drop off).take len`, which also captures short reads past EOF.
-/

/-- Byte sequences standing for file contents. -/
abbrev Bytes := List Nat

/-- `f.seek(off); f.read(len)`: the window of `len` bytes at `off`
(shorter when the file ends first). -/
def readWindow (b : Bytes) (off len : Nat) : Bytes :=
  (b.drop off).take len

/-- `TensorProto.data_location`: weights inline in the graph file or in
an external payload file. -/
inductive StorageMode where
  | inline
  | external
deriving DecidableEq

/-- One `StringStringEntryProto` of an initializer's `external_data`. -/
structure KV where
  key : String
  value : String
deriving DecidableEq

/-- An initializer tensor of a graph, as `merge_lowmem.py` sees it:
name, storage mode, and its `external_data` entries. -/
structure Initializer where
  name : String
  data_location : StorageMode
  external_data : List KV
deriving DecidableEq

/-- The `{tensor_name: external_data_entries}` dict built by
`build_ext_map`, as an association list with unique keys. -/
abbrev ExtMap := List (String × List KV)

/-- Dict lookup on an `ExtMap` (keys are unique by construction). -/
def lookupKV (m : ExtMap) (n : String) : Option (List KV) :=
  (m.find? (fun p => p.1 == n)).map Prod.snd

/-- `name in mapping` on an `ExtMap`. -/
def hasKey (m : ExtMap) (n : String) : Bool :=
  m.any (fun p => p.1 == n)

/-- Python dict assignment `m[k] = v`: update in place if the key
exists, else append. -/
def dictSet (m : ExtMap) (k : String) (v : List KV) : ExtMap :=
  if hasKey m k then m.map (fun p => if p.1 == k then (k, v) else p)
  else m ++ [(k, v)]

/-- `build_ext_map(model)`: the `{t.name: list(t.external_data)}` dict
over the external-mode initializers of a graph. -/
def build_ext_map (inits : List Initializer) : ExtMap :=
  inits.foldl
    (fun m t =>
      if t.data_location = StorageMode.external then dictSet m t.name t.external_data
      else m)
    []

/-- `{e.key: e.value for e in entries}.get(k)`: the value of the LAST
entry with key `k`, as in a Python dict comprehension. -/
def dictGet (entries : List KV) (k : String) : Option String :=
  (entries.reverse.find? (fun e => e.key == k)).map KV.value

/-- Little-endian decimal digits to the number they denote. -/
def ofDigitsLE : List Nat → Nat
  | [] => 0
  | d :: ds => d + 10 * ofDigitsLE ds

/-- Little-endian decimal digits of `n`, with structural fuel so the
definition reduces in the kernel. -/
def digitsLEAux : Nat → Nat → List Nat
  | 0, _ => []
  | _ + 1, 0 => []
  | fuel + 1, n + 1 => ((n + 1) % 10) :: digitsLEAux fuel ((n + 1) / 10)

/-- Little-endian decimal digits of `n` (empty for 0). -/
def digitsLE (n : Nat) : List Nat :=
  digitsLEAux n n

/-- Python `str(n)` for a natural number. -/
def pyStrNat (n : Nat) : String :=
  if n = 0 then "0"
  else String.mk ((digitsLE n).reverse.map (fun d => Char.ofNat (48 + d)))

/-- Python `int(s)` for the decimal strings the script reads and
writes; totalised with 0 elsewhere. -/
def pyIntStr (s : String) : Nat :=
  ofDigitsLE ((s.data.map (fun c => c.toNat - 48)).reverse)

theorem ofDigitsLE_digitsLEAux (fuel : Nat) :
    ∀ n : Nat, n ≤ fuel → ofDigitsLE (digitsLEAux fuel n) = n := by
  induction fuel with
  | zero =>
      intro n hn
      interval_cases n
      simp [digitsLEAux, ofDigitsLE]
  | succ fuel ih =>
      intro n hn
      match n with
      | 0 => simp [digitsLEAux, ofDigitsLE]
      | m + 1 =>
          have hdiv : (m + 1) / 10 < m + 1 := Nat.div_lt_self (Nat.succ_pos m) (by decide)
          have hle : (m + 1) / 10 ≤ fuel := by omega
          simp only [digitsLEAux, ofDigitsLE, ih _ hle]
          omega

theorem ofDigitsLE_digitsLE (n : Nat) : ofDigitsLE (digitsLE n) = n :=
  ofDigitsLE_digitsLEAux n n (Nat.le_refl n)

theorem digitsLEAux_lt_ten (fuel : Nat) :
    ∀ n : Nat, ∀ d ∈ digitsLEAux fuel n, d < 10 := by
  induction fuel with
  | zero => intro n d hd; simp [digitsLEAux] at hd
  | succ fuel ih =>
      intro n d hd
      match n with
      | 0 => simp [digitsLEAux] at hd
      | m + 1 =>
          simp only [digitsLEAux, List.mem_cons] at hd
          rcases hd with h | h
          · omega
          · exact ih _ d h

theorem toNat_ofNat_digit (d : Nat) (h : d < 10) :
    (Char.ofNat (48 + d)).toNat = 48 + d := by
  interval_cases d <;> decide

/-- Round trip: the script re-parses exactly the offsets and lengths it
serialises with `str`. -/
theorem pyIntStr_pyStrNat (n : Nat) : pyIntStr (pyStrNat n) = n := by
  by_cases h0 : n = 0
  · subst h0; decide
  · have hmap :
        ((digitsLE n).reverse.map (fun d => Char.ofNat (48 + d))).map
            (fun c => c.toNat - 48) =
          (digitsLE n).reverse := by
      rw [List.map_map]
      have : ∀ d ∈ (digitsLE n).reverse,
          ((fun c => c.toNat - 48) ∘ fun d => Char.ofNat (48 + d)) d = id d := by
        intro d hd
        have hdlt : d < 10 := by
          exact digitsLEAux_lt_ten n n d (List.mem_reverse.mp hd)
        simp [Function.comp, toNat_ofNat_digit d hdlt]
      rw [List.map_congr_left this, List.map_id]
    simp only [pyIntStr, pyStrNat, h0, if_false]
    rw [hmap, List.reverse_reverse, ofDigitsLE_digitsLE]

/-- `int(entries.get(k, 0))` over a dict built from `entries`. -/
def entryNat (entries : List KV) (k : String) : Nat :=
  match dictGet entries k with
  | some s => pyIntStr s
  | none => 0

/-- The `(old_offset, length)` pair the append loop reads from
`ext_b[name]`. -/
def refOf (eb : ExtMap) (n : String) : Nat × Nat :=
  let entries := (lookupKV eb n).getD []
  (entryNat entries "offset", entryNat entries "length")

/-- The body of the `restore_ext_refs` loop for one initializer
(`merge_lowmem.py` lines 35-45): index A first, then index B, else the
tensor is left untouched. -/
def restore_one (ea eb : ExtMap) (t : Initializer) : Initializer :=
  match lookupKV ea t.name with
  | some v => { t with data_location := StorageMode.external, external_data := v }
  | none =>
      match lookupKV eb t.name with
      | some v => { t with data_location := StorageMode.external, external_data := v }
      | none => t

/-- The names `restore_ext_refs` collects in `missing` and reports in a
non-fatal warning. -/
def restore_missing (ea eb : ExtMap) (merged : List Initializer) : List String :=
  (merged.filter
      (fun t => (lookupKV ea t.name).isNone && (lookupKV eb t.name).isNone)).map
    Initializer.name

/-- `restore_ext_refs(merged_model, ext_map_a, ext_map_b)`: the updated
initializer list together with the warned-about names. -/
def restore_ext_refs (merged : List Initializer) (ea eb : ExtMap) :
    List Initializer × List String :=
  (merged.map (restore_one ea eb), restore_missing ea eb merged)

/-- `set(ext_b.keys()) - set(ext_a.keys())`, enumerated here in B's key
order; the Python set's own enumeration order is hash-seed dependent, so
the path functions below take the enumeration as a parameter constrained
to be a permutation of this set. -/
def only_in_b (ea eb : ExtMap) : List String :=
  (eb.map Prod.fst).filter (fun n => !hasKey ea n)

/-- One iteration of the append loop (`merge_lowmem.py` lines 114-124):
read B's `(offset, length)` window, append it at the current end of the
merged file, and record `offset_map[name] = (new_offset, length)`. -/
def appendStep (payloadB : Bytes) (eb : ExtMap) (acc : Bytes × List (String × Nat × Nat))
    (n : String) : Bytes × List (String × Nat × Nat) :=
  let r := refOf eb n
  let data := readWindow payloadB r.1 r.2
  (acc.1 ++ data, acc.2 ++ [(n, acc.1.length, r.2)])

/-- The general path's payload construction: `shutil.copy2` of A's
payload followed by the append loop over the unique-to-B names in
enumeration order `names`. Returns the merged file's bytes and
`offset_map`. -/
def generalPathPayload (payloadA payloadB : Bytes) (eb : ExtMap) (names : List String) :
    Bytes × List (String × Nat × Nat) :=
  names.foldl (appendStep payloadB eb) (payloadA, [])

/-- `offset_map.get(name)` (the rewrite pass looks unique names up in
the dict the loop built). -/
def lookupOffsetMap (omap : List (String × Nat × Nat)) (n : String) :
    Option (Nat × Nat) :=
  (omap.find? (fun p => p.1 == n)).map Prod.snd

/-- The `(name, new_offset, length)` triples the append loop produces
when every read is in bounds: offsets are consecutive from `base`. -/
def refsFrom (eb : ExtMap) (base : Nat) : List String → List (String × Nat × Nat)
  | [] => []
  | n :: ns => (n, base, (refOf eb n).2) :: refsFrom eb (base + (refOf eb n).2) ns

theorem readWindow_length (b : Bytes) (off len : Nat) (h : off + len ≤ b.length) :
    (readWindow b off len).length = len := by
  simp [readWindow]
  omega

theorem readWindow_append_left (a b : Bytes) (off len : Nat)
    (h : off + len ≤ a.length) : readWindow (a ++ b) off len = readWindow a off len := by
  unfold readWindow
  rw [List.drop_append_of_le_length (by omega), List.take_append_of_le_length]
  simp
  omega

theorem readWindow_append_exact (a d rest : Bytes) (len : Nat) (hd : d.length = len) :
    readWindow (a ++ (d ++ rest)) a.length len = d := by
  unfold readWindow
  rw [List.drop_left, List.take_left' hd]

/-- Closed-form of the append loop: the merged bytes are the running
file followed by B's windows in order, and `offset_map` grows by
consecutive offsets, provided every `(offset, length)` window fits in
B's payload. -/
theorem appendLoop_spec (payloadB : Bytes) (eb : ExtMap) :
    ∀ (names : List String) (cur : Bytes) (m : List (String × Nat × Nat)),
      (∀ n ∈ names, (refOf eb n).1 + (refOf eb n).2 ≤ payloadB.length) →
      names.foldl (appendStep payloadB eb) (cur, m) =
        (cur ++ (names.map (fun n => readWindow payloadB (refOf eb n).1 (refOf eb n).2)).flatten,
         m ++ refsFrom eb cur.length names) := by
  intro names
  induction names with
  | nil => intro cur m _; simp [refsFrom]
  | cons n ns ih =>
      intro cur m hb
      have hn : (refOf eb n).1 + (refOf eb n).2 ≤ payloadB.length :=
        hb n (List.mem_cons_self n ns)
      have hdata : (readWindow payloadB (refOf eb n).1 (refOf eb n).2).length =
          (refOf eb n).2 := readWindow_length _ _ _ hn
      have hns : ∀ x ∈ ns, (refOf eb x).1 + (refOf eb x).2 ≤ payloadB.length := by
        intro x hx; exact hb x (List.mem_cons_of_mem n hx)
      simp only [List.foldl_cons]
      rw [show appendStep payloadB eb (cur, m) n =
          (cur ++ readWindow payloadB (refOf eb n).1 (refOf eb n).2,
           m ++ [(n, cur.length, (refOf eb n).2)]) from rfl]
      rw [ih _ _ hns]
      simp [refsFrom, hdata, List.append_assoc]

/-- Every `offset_map` triple reads back, from the constructed merged
file, exactly the bytes of its source window in B, keeps its length,
and lies within the merged file's bounds. -/
theorem refsFrom_readback (payloadB : Bytes) (eb : ExtMap) :
    ∀ (names : List String) (cur : Bytes),
      (∀ n ∈ names, (refOf eb n).1 + (refOf eb n).2 ≤ payloadB.length) →
      ∀ x ∈ refsFrom eb cur.length names,
        readWindow
            (cur ++ (names.map
              (fun n => readWindow payloadB (refOf eb n).1 (refOf eb n).2)).flatten)
            x.2.1 x.2.2 =
          readWindow payloadB (refOf eb x.1).1 (refOf eb x.1).2 ∧
        x.2.2 = (refOf eb x.1).2 ∧
        x.2.1 + x.2.2 ≤
          (cur ++ (names.map
            (fun n => readWindow payloadB (refOf eb n).1 (refOf eb n).2)).flatten).length := by
  intro names
  induction names with
  | nil => intro cur _ x hx; simp [refsFrom] at hx
  | cons n ns ih =>
      intro cur hb x hx
      have hn : (refOf eb n).1 + (refOf eb n).2 ≤ payloadB.length :=
        hb n (List.mem_cons_self n ns)
      have hdata : (readWindow payloadB (refOf eb n).1 (refOf eb n).2).length =
          (refOf eb n).2 := readWindow_length _ _ _ hn
      have hns : ∀ y ∈ ns, (refOf eb y).1 + (refOf eb y).2 ≤ payloadB.length := by
        intro y hy; exact hb y (List.mem_cons_of_mem n hy)
      simp only [refsFrom, List.mem_cons] at hx
      rcases hx with hx | hx
      · subst hx
        refine ⟨?_, rfl, ?_⟩
        · simp only [List.map_cons, List.flatten_cons]
          exact readWindow_append_exact _ _ _ _ hdata
        · simp only [List.map_cons, List.flatten_cons, List.length_append, hdata]
          omega
      · have hbase : cur.length + (refOf eb n).2 =
            (cur ++ readWindow payloadB (refOf eb n).1 (refOf eb n).2).length := by
          simp [hdata]
        rw [hbase] at hx
        have := ih (cur ++ readWindow payloadB (refOf eb n).1 (refOf eb n).2) hns x hx
        simpa [List.append_assoc] using this

def mergedDataName : String := "decoder_model_merged.onnx_data"

def decDataName : String := "decoder_model.onnx_data"

def mergedGraphName : String := "decoder_model_merged.onnx"

def mergedQuantName : String := "decoder_model_merged_quantized.onnx"

/-- One step of the Python dict comprehension
`{e.key: e.value for e in t.external_data}`: a repeated key keeps its
first position but takes the later value. -/
def dictStep (acc : List KV) (e : KV) : List KV :=
  if acc.any (fun p => p.key == e.key) then
    acc.map (fun p => if p.key == e.key then KV.mk p.key e.value else p)
  else acc ++ [e]

/-- The dict comprehension over a list of entries, flattened back to an
entry list in dict (insertion) order. -/
def dictOfEntries (es : List KV) : List KV :=
  es.foldl dictStep []

theorem dictOfEntries_foldl (es : List KV) :
    ∀ acc : List KV, (((acc ++ es).map KV.key).Nodup) →
      es.foldl dictStep acc = acc ++ es := by
  induction es with
  | nil => intro acc _; simp
  | cons e es ih =>
      intro acc hnd
      have hmem : e.key ∉ acc.map KV.key := by
        have := (List.nodup_append.mp (by simpa using hnd)).2.2
        intro hk
        exact this hk (by simp)
      have hany : acc.any (fun p => p.key == e.key) = false := by
        by_contra h
        rw [Bool.not_eq_false, List.any_eq_true] at h
        obtain ⟨p, hp, hpe⟩ := h
        exact hmem (by
          rw [List.mem_map]
          exact ⟨p, hp, by simpa using hpe⟩)
      have hstep : dictStep acc e = acc ++ [e] := by
        simp [dictStep, hany]
      rw [List.foldl_cons, hstep, ih (acc ++ [e]) (by simpa [List.append_assoc] using hnd)]
      simp

/-- With distinct keys (the well-formed ONNX case) the dict
comprehension is the identity on the entry list. -/
theorem dictOfEntries_id (es : List KV) (h : (es.map KV.key).Nodup) :
    dictOfEntries es = es := by
  simpa using dictOfEntries_foldl es [] (by simpa using h)

/-- The in-place patch of a single `external_data` entry used on tensors
kept at their source-A offsets: only the `location` value changes. -/
def patchLocation (e : KV) : KV :=
  if e.key == "location" then KV.mk e.key mergedDataName else e

/-- The general path's reference-rewrite body (`merge_lowmem.py` lines
127-143) for one initializer: appended unique-B tensors get exactly the
three fresh `location`/`offset`/`length` entries; everything else keeps
its dict entries with `location` renamed. -/
def rewriteRef (omap : List (String × Nat × Nat)) (t : Initializer) : Initializer :=
  if t.data_location = StorageMode.external then
    let entries := dictOfEntries t.external_data
    match lookupOffsetMap omap t.name with
    | some r =>
        { t with external_data :=
            [KV.mk "location" mergedDataName,
             KV.mk "offset" (pyStrNat r.1),
             KV.mk "length" (pyStrNat r.2)] }
    | none => { t with external_data := entries.map patchLocation }
  else t

/-- The fast path's in-place patch (`merge_lowmem.py` lines 154-158):
rewrite each `location` entry of an external tensor, leaving every
other entry untouched. -/
def fastPathInit (t : Initializer) : Initializer :=
  if t.data_location = StorageMode.external then
    { t with external_data := t.external_data.map patchLocation }
  else t

/-- Filesystem effects the merge step performs, in program order. -/
inductive FsOp where
  | copyFile (src dst : String)
  | appendBytes (dst : String) (data : Bytes)
  | symlink (target linkName : String)
  | saveModel (dst : String)
  | rename (src dst : String)
deriving DecidableEq

/-- The merged payload artifact: a symlink alias of an existing file, or
a newly constructed byte sequence. -/
inductive MergedPayload where
  | aliasOf (target : String)
  | constructed (bytes : Bytes)
deriving DecidableEq

/-- Size of the merged payload, given the content of the alias target
(always source A's payload file in this program). -/
def payloadSize (p : MergedPayload) (aliasTarget : Bytes) : Nat :=
  match p with
  | MergedPayload.aliasOf _ => aliasTarget.length
  | MergedPayload.constructed b => b.length

/-- The write operations the append loop issues against the merged
payload file's final name. -/
def appendTrace (payloadB : Bytes) (eb : ExtMap) (order : List String) : List FsOp :=
  order.map (fun n => FsOp.appendBytes mergedDataName (readWindow payloadB (refOf eb n).1 (refOf eb n).2))

/-- Result of Step 1 of `merge_lowmem.py` (lines 66-163): filesystem
trace, rewritten initializers, and the merged payload artifact. -/
structure Step1Out where
  trace : List FsOp
  inits : List Initializer
  payload : MergedPayload
deriving DecidableEq

/-- Step 1 of `merge_lowmem.py` after the structural merge: restore the
external refs from the two indexes, then either construct a combined
payload (general path, `order ≠ []` enumerates `set(ext_b) - set(ext_a)`)
or symlink source A's payload (fast path). `dataFileExists` is the
`os.path.exists(merged_data_path)` guard of the fast path. -/
def step1 (mergedGraph : List Initializer) (ea eb : ExtMap) (payloadA payloadB : Bytes)
    (order : List String) (dataFileExists : Bool) : Step1Out :=
  let restored := (restore_ext_refs mergedGraph ea eb).1
  if order.isEmpty then
    { trace := (if dataFileExists then [] else [FsOp.symlink decDataName mergedDataName]) ++
        [FsOp.saveModel mergedGraphName],
      inits := restored.map fastPathInit,
      payload := MergedPayload.aliasOf decDataName }
  else
    let res := generalPathPayload payloadA payloadB eb order
    { trace := FsOp.copyFile decDataName mergedDataName ::
        (appendTrace payloadB eb order ++ [FsOp.saveModel mergedGraphName]),
      inits := restored.map (rewriteRef res.2),
      payload := MergedPayload.constructed res.1 }

theorem patchLocation_key (e : KV) : (patchLocation e).key = e.key := by
  cases h : (e.key == "location") <;> simp [patchLocation, h]

theorem lookupKV_mem (m : ExtMap) (n : String) (v : List KV)
    (h : lookupKV m n = some v) : ∃ p ∈ m, p.1 = n ∧ p.2 = v := by
  unfold lookupKV at h
  cases hf : m.find? (fun p => p.1 == n) with
  | none => rw [hf] at h; simp at h
  | some p =>
      rw [hf] at h
      refine ⟨p, List.mem_of_find?_eq_some hf, ?_, ?_⟩
      · simpa using List.find?_some hf
      · simpa using h

theorem hasKey_true_iff (m : ExtMap) (n : String) :
    hasKey m n = true ↔ ∃ v, lookupKV m n = some v := by
  unfold hasKey lookupKV
  rw [List.any_eq_true]
  constructor
  · rintro ⟨p, hp, hpe⟩
    have hs : (m.find? (fun p => p.1 == n)).isSome = true :=
      List.find?_isSome.mpr ⟨p, hp, hpe⟩
    cases hf : m.find? (fun p => p.1 == n) with
    | none => rw [hf] at hs; simp at hs
    | some q => exact ⟨q.2, rfl⟩
  · rintro ⟨v, hv⟩
    cases hf : m.find? (fun p => p.1 == n) with
    | none => rw [hf] at hv; simp at hv
    | some q =>
        refine ⟨q, List.mem_of_find?_eq_some hf, ?_⟩
        have hq := List.find?_some hf
        simpa using hq

theorem hasKey_false_lookup (m : ExtMap) (n : String) (h : hasKey m n = false) :
    lookupKV m n = none := by
  cases hv : lookupKV m n with
  | none => rfl
  | some v =>
      have := (hasKey_true_iff m n).mpr ⟨v, hv⟩
      rw [h] at this
      exact absurd this (by simp)

theorem lookup_none_hasKey (m : ExtMap) (n : String) (h : lookupKV m n = none) :
    hasKey m n = false := by
  cases hk : hasKey m n with
  | false => rfl
  | true =>
      obtain ⟨v, hv⟩ := (hasKey_true_iff m n).mp hk
      rw [h] at hv
      exact absurd hv (by simp)

theorem entryNat_map_patchLocation (es : List KV) (k : String) (hk : k ≠ "location") :
    entryNat (es.map patchLocation) k = entryNat es k := by
  unfold entryNat dictGet
  rw [← List.map_reverse, List.find?_map]
  have hpred : ((fun e : KV => e.key == k) ∘ patchLocation) = (fun e : KV => e.key == k) := by
    funext e
    simp [Function.comp, patchLocation_key]
  rw [hpred]
  cases hfind : es.reverse.find? (fun e => e.key == k) with
  | none => simp
  | some e =>
      have he : e.key = k := by simpa using List.find?_some hfind
      have hpe : patchLocation e = e := by
        unfold patchLocation
        rw [he]
        simp [hk]
      simp [hpe]

/-- **C2.** For every initializer `t` of the merged graph,
`restore_ext_refs` checks index A first — `t` receives A's entries even
when `t.name` is present in both indexes — otherwise index B; a tensor in
neither index is left untouched and only its name is recorded in the
non-fatal `missing` diagnostic, while every initializer is still
processed (the output list keeps the input's length: no abort). -/
theorem restore_ext_refs_resolution (merged : List Initializer) (ea eb : ExtMap)
    (t : Initializer) (ht : t ∈ merged) :
    (∀ v, lookupKV ea t.name = some v →
        restore_one ea eb t =
          { t with data_location := StorageMode.external, external_data := v }) ∧
    (lookupKV ea t.name = none → ∀ v, lookupKV eb t.name = some v →
        restore_one ea eb t =
          { t with data_location := StorageMode.external, external_data := v }) ∧
    (lookupKV ea t.name = none → lookupKV eb t.name = none →
        restore_one ea eb t = t ∧ t.name ∈ (restore_ext_refs merged ea eb).2) ∧
    restore_one ea eb t ∈ (restore_ext_refs merged ea eb).1 ∧
    (restore_ext_refs merged ea eb).1.length = merged.length := by
  refine ⟨?_, ?_, ?_, ?_, ?_⟩
  · intro v hv
    simp [restore_one, hv]
  · intro h1 v hv
    simp [restore_one, h1, hv]
  · intro h1 h2
    refine ⟨by simp [restore_one, h1, h2], ?_⟩
    simp only [restore_ext_refs, restore_missing, List.mem_map, List.mem_filter]
    exact ⟨t, ⟨ht, by simp [h1, h2]⟩, rfl⟩
  · exact List.mem_map_of_mem _ ht
  · simp [restore_ext_refs]

theorem restore_ext_refs_resolution_witness :
    (Initializer.mk "w1" StorageMode.external [] ∈
        [Initializer.mk "w1" StorageMode.external []]) ∧
    ((∀ v, lookupKV [("w1", [KV.mk "offset" "0"])] "w1" = some v →
        restore_one [("w1", [KV.mk "offset" "0"])] [("w1", [KV.mk "offset" "7"])]
            (Initializer.mk "w1" StorageMode.external []) =
          { Initializer.mk "w1" StorageMode.external [] with
              data_location := StorageMode.external, external_data := v }) ∧
    (lookupKV [("w1", [KV.mk "offset" "0"])] "w1" = none →
        ∀ v, lookupKV [("w1", [KV.mk "offset" "7"])] "w1" = some v →
        restore_one [("w1", [KV.mk "offset" "0"])] [("w1", [KV.mk "offset" "7"])]
            (Initializer.mk "w1" StorageMode.external []) =
          { Initializer.mk "w1" StorageMode.external [] with
              data_location := StorageMode.external, external_data := v }) ∧
    (lookupKV [("w1", [KV.mk "offset" "0"])] "w1" = none →
        lookupKV [("w1", [KV.mk "offset" "7"])] "w1" = none →
        restore_one [("w1", [KV.mk "offset" "0"])] [("w1", [KV.mk "offset" "7"])]
            (Initializer.mk "w1" StorageMode.external []) =
          Initializer.mk "w1" StorageMode.external [] ∧
        "w1" ∈ (restore_ext_refs [Initializer.mk "w1" StorageMode.external []]
            [("w1", [KV.mk "offset" "0"])] [("w1", [KV.mk "offset" "7"])]).2) ∧
    restore_one [("w1", [KV.mk "offset" "0"])] [("w1", [KV.mk "offset" "7"])]
        (Initializer.mk "w1" StorageMode.external []) ∈
      (restore_ext_refs [Initializer.mk "w1" StorageMode.external []]
          [("w1", [KV.mk "offset" "0"])] [("w1", [KV.mk "offset" "7"])]).1 ∧
    (restore_ext_refs [Initializer.mk "w1" StorageMode.external []]
        [("w1", [KV.mk "offset" "0"])] [("w1", [KV.mk "offset" "7"])]).1.length =
      [Initializer.mk "w1" StorageMode.external []].length) :=
  ⟨by decide,
   restore_ext_refs_resolution [Initializer.mk "w1" StorageMode.external []]
     [("w1", [KV.mk "offset" "0"])] [("w1", [KV.mk "offset" "7"])]
     (Initializer.mk "w1" StorageMode.external []) (by decide)⟩

/-- **C10.** In the general path's rewrite pass, an external initializer
appended from UniqueB ends with exactly the three fresh entries
`location`/`offset`/`length` (any other source key, e.g. a checksum, is
discarded); any other external initializer keeps all of its
`external_data` keys and values — under the well-formed assumption that
its keys are distinct, so the dict comprehension collapses nothing — with
only each `location` value replaced by the merged file's name. -/
theorem general_path_ref_rewrite_frame (omap : List (String × Nat × Nat))
    (t : Initializer) (hext : t.data_location = StorageMode.external)
    (hnd : (t.external_data.map KV.key).Nodup) :
    (∀ off len, lookupOffsetMap omap t.name = some (off, len) →
        (rewriteRef omap t).external_data =
          [KV.mk "location" mergedDataName, KV.mk "offset" (pyStrNat off),
           KV.mk "length" (pyStrNat len)]) ∧
    (lookupOffsetMap omap t.name = none →
        (rewriteRef omap t).external_data = t.external_data.map patchLocation) ∧
    (∀ e ∈ t.external_data, (patchLocation e).key = e.key) ∧
    (∀ e ∈ t.external_data, e.key ≠ "location" → patchLocation e = e) ∧
    (∀ e ∈ t.external_data, e.key = "location" →
        patchLocation e = KV.mk e.key mergedDataName) := by
  refine ⟨?_, ?_, ?_, ?_, ?_⟩
  · intro off len h
    simp [rewriteRef, hext, h]
  · intro h
    simp [rewriteRef, hext, h, dictOfEntries_id _ hnd]
  · intro e _
    exact patchLocation_key e
  · intro e _ hk
    simp [patchLocation, hk]
  · intro e _ hk
    simp [patchLocation, hk]

theorem general_path_ref_rewrite_frame_witness :
    ((Initializer.mk "u" StorageMode.external
        [KV.mk "location" "decoder_with_past_model.onnx_data", KV.mk "offset" "4",
         KV.mk "length" "2", KV.mk "checksum" "abc"]).data_location =
       StorageMode.external) ∧
    (((Initializer.mk "u" StorageMode.external
        [KV.mk "location" "decoder_with_past_model.onnx_data", KV.mk "offset" "4",
         KV.mk "length" "2", KV.mk "checksum" "abc"]).external_data.map KV.key).Nodup) ∧
    ((∀ off len, lookupOffsetMap [("u", 9, 2)] "u" = some (off, len) →
        (rewriteRef [("u", 9, 2)]
            (Initializer.mk "u" StorageMode.external
              [KV.mk "location" "decoder_with_past_model.onnx_data", KV.mk "offset" "4",
               KV.mk "length" "2", KV.mk "checksum" "abc"])).external_data =
          [KV.mk "location" mergedDataName, KV.mk "offset" (pyStrNat off),
           KV.mk "length" (pyStrNat len)]) ∧
    (lookupOffsetMap [("u", 9, 2)] "u" = none →
        (rewriteRef [("u", 9, 2)]
            (Initializer.mk "u" StorageMode.external
              [KV.mk "location" "decoder_with_past_model.onnx_data", KV.mk "offset" "4",
               KV.mk "length" "2", KV.mk "checksum" "abc"])).external_data =
          (Initializer.mk "u" StorageMode.external
              [KV.mk "location" "decoder_with_past_model.onnx_data", KV.mk "offset" "4",
               KV.mk "length" "2", KV.mk "checksum" "abc"]).external_data.map patchLocation) ∧
    (∀ e ∈ (Initializer.mk "u" StorageMode.external
        [KV.mk "location" "decoder_with_past_model.onnx_data", KV.mk "offset" "4",
         KV.mk "length" "2", KV.mk "checksum" "abc"]).external_data,
        (patchLocation e).key = e.key) ∧
    (∀ e ∈ (Initializer.mk "u" StorageMode.external
        [KV.mk "location" "decoder_with_past_model.onnx_data", KV.mk "offset" "4",
         KV.mk "length" "2", KV.mk "checksum" "abc"]).external_data,
        e.key ≠ "location" → patchLocation e = e) ∧
    (∀ e ∈ (Initializer.mk "u" StorageMode.external
        [KV.mk "location" "decoder_with_past_model.onnx_data", KV.mk "offset" "4",
         KV.mk "length" "2", KV.mk "checksum" "abc"]).external_data,
        e.key = "location" → patchLocation e = KV.mk e.key mergedDataName)) :=
  ⟨by decide, by decide,
   general_path_ref_rewrite_frame [("u", 9, 2)]
     (Initializer.mk "u" StorageMode.external
       [KV.mk "location" "decoder_with_past_model.onnx_data", KV.mk "offset" "4",
        KV.mk "length" "2", KV.mk "checksum" "abc"]) (by decide) (by decide)⟩

/-- A tensor as the `to_array` dereference functions of
`merge_and_upload.py` inspect it: name, storage mode, its inline
`raw_data`, and its external `(offset, length)` reference. -/
structure Tensor where
  name : String
  data_location : StorageMode
  raw_data : Bytes
  offset : Nat
  length : Nat
deriving DecidableEq

/-- What a dereference returns: the int64 sentinel array built from a
name hash, or real tensor bytes. -/
inductive DerefValue where
  | intArray (xs : List Int)
  | realBytes (bs : Bytes)
deriving DecidableEq

/-- A dereference result together with how many payload-file reads it
performed. -/
structure DerefOut where
  value : DerefValue
  payloadReads : Nat
deriving DecidableEq

/-- The real `onnx.numpy_helper.to_array`: reads the payload window of
an external tensor (one payload read), decodes `raw_data` for an inline
tensor (no payload read). -/
def orig_to_array (payload : Bytes) (t : Tensor) : DerefOut :=
  if t.data_location = StorageMode.external then
    DerefOut.mk (DerefValue.realBytes (readWindow payload t.offset t.length)) 1
  else
    DerefOut.mk (DerefValue.realBytes t.raw_data) 0

/-- `_patched_to_array` (`merge_and_upload.py` lines 69-72): an external
tensor yields `np.array([hash(tensor.name) & 0x7FFFFFFF])` — CPython's
seeded string hash is the opaque parameter `pyhash`, and `& 0x7FFFFFFF`
on a Python int is arithmetically `mod 2^31` — while anything else falls
through to the original `to_array`. -/
def patched_to_array (pyhash : String → Int) (payload : Bytes) (t : Tensor) : DerefOut :=
  if t.data_location = StorageMode.external then
    DerefOut.mk (DerefValue.intArray [pyhash t.name % (2 ^ 31 : Int)]) 0
  else orig_to_array payload t

/-- **C6.** While the substitution is installed, dereferencing an
external tensor returns a surrogate computed only from its name — zero
payload reads, and the result is identical across any two payload
contents — while inline tensors are dereferenced by the original real
mechanism. -/
theorem fingerprint_substitution_surrogate (pyhash : String → Int) (t : Tensor)
    (p1 p2 : Bytes) :
    (t.data_location = StorageMode.external →
        patched_to_array pyhash p1 t = patched_to_array pyhash p2 t ∧
        (patched_to_array pyhash p1 t).payloadReads = 0 ∧
        (patched_to_array pyhash p1 t).value =
          DerefValue.intArray [pyhash t.name % (2 ^ 31 : Int)]) ∧
    (t.data_location = StorageMode.inline →
        patched_to_array pyhash p1 t = orig_to_array p1 t) := by
  constructor
  · intro h
    refine ⟨?_, ?_, ?_⟩ <;> simp [patched_to_array, h]
  · intro h
    simp [patched_to_array, h]

theorem fingerprint_substitution_surrogate_witness :
    ((Tensor.mk "w" StorageMode.external [] 0 2).data_location = StorageMode.external →
        patched_to_array (fun s => Int.ofNat s.length) [1, 2, 3]
            (Tensor.mk "w" StorageMode.external [] 0 2) =
          patched_to_array (fun s => Int.ofNat s.length) [9, 9, 9]
            (Tensor.mk "w" StorageMode.external [] 0 2) ∧
        (patched_to_array (fun s => Int.ofNat s.length) [1, 2, 3]
            (Tensor.mk "w" StorageMode.external [] 0 2)).payloadReads = 0 ∧
        (patched_to_array (fun s => Int.ofNat s.length) [1, 2, 3]
            (Tensor.mk "w" StorageMode.external [] 0 2)).value =
          DerefValue.intArray
            [Int.ofNat ("w".length) % (2 ^ 31 : Int)]) ∧
    ((Tensor.mk "w" StorageMode.external [] 0 2).data_location = StorageMode.inline →
        patched_to_array (fun s => Int.ofNat s.length) [1, 2, 3]
            (Tensor.mk "w" StorageMode.external [] 0 2) =
          orig_to_array [1, 2, 3] (Tensor.mk "w" StorageMode.external [] 0 2)) :=
  fingerprint_substitution_surrogate (fun s => Int.ofNat s.length)
    (Tensor.mk "w" StorageMode.external [] 0 2) [1, 2, 3] [9, 9, 9]

/-- The process-global state `merge_and_upload.py` mutates around the
structural merge call: whether `nh.to_array` currently holds the patched
function, and the working directory. -/
structure PatchEnv where
  to_array_patched : Bool
  cwd : String
deriving DecidableEq

/-- Python control flow for the block around `merge_decoders`:
exceptions short-circuit, state mutations persist. -/
abbrev PyM := ExceptT String (StateM PatchEnv)

/-- Propagation of the opaque `merge_decoders` outcome: a normal return
or a raised exception. -/
def liftOutcome (r : Except String Unit) : PyM Unit :=
  match r with
  | Except.ok _ => pure ()
  | Except.error e => throw e

/-- Lines 73-88 of `merge_and_upload.py`, statement by statement:
`nh.to_array = _patched_to_array`; `os.chdir(ONNX_DIR)`;
`merged = merge_decoders(...)`; `nh.to_array = _orig_to_array`;
`os.chdir(orig_cwd)`. There is no `try/finally` in the source, so a
raise inside `merge_decoders` skips both restore statements. -/
def mergeBlock (outcome : Except String Unit) : PyM Unit := do
  modify (fun s => { s with to_array_patched := true })
  modify (fun s => { s with cwd := "./onnx_export/onnx" })
  liftOutcome outcome
  modify (fun s => { s with to_array_patched := false })
  modify (fun s => { s with cwd := "." })

/-- Run the block from a given process state. -/
def runMergeBlock (outcome : Except String Unit) (s : PatchEnv) :
    Except String Unit × PatchEnv :=
  (mergeBlock outcome).run.run s

/-- **C7** is violated: after `merge_decoders` raises, the patched
`to_array` (and the changed working directory) remain installed, because
the restore statements only run on the normal path; on a normal return
the patch is restored. -/
theorem patch_not_restored_on_merge_error :
    (runMergeBlock (Except.error "StructuralMergeError")
        (PatchEnv.mk false ".")).2.to_array_patched = true ∧
    (runMergeBlock (Except.error "StructuralMergeError")
        (PatchEnv.mk false ".")).1 = Except.error "StructuralMergeError" ∧
    (runMergeBlock (Except.ok ()) (PatchEnv.mk false ".")).2.to_array_patched = false := by
  refine ⟨rfl, rfl, rfl⟩

/-- **C1.** General path: the merged payload file is exactly source A's
payload as a verbatim prefix followed by, for each unique-B name in
enumeration order, the `length` bytes read at its source `offset` from
B's payload file; its length is `len(A) + sum(unique lengths)`;
`offset_map` records for each appended tensor the end-of-file offset
just before its append with `length` unchanged; reading any appended
tensor's merged `(offset, length)` window returns its original B window
and any window within A's bounds returns A's window; and the rewrite
pass gives each appended tensor the ref
`{location: merged file, offset: new offset, length: unchanged}`. -/
theorem general_path_payload_correct (payloadA payloadB : Bytes) (eb : ExtMap)
    (names : List String)
    (hb : ∀ n ∈ names, (refOf eb n).1 + (refOf eb n).2 ≤ payloadB.length) :
    (generalPathPayload payloadA payloadB eb names).1 =
        payloadA ++
          (names.map (fun n => readWindow payloadB (refOf eb n).1 (refOf eb n).2)).flatten ∧
    (generalPathPayload payloadA payloadB eb names).1.length =
        payloadA.length + (names.map (fun n => (refOf eb n).2)).sum ∧
    (generalPathPayload payloadA payloadB eb names).2 =
        refsFrom eb payloadA.length names ∧
    (∀ x ∈ (generalPathPayload payloadA payloadB eb names).2,
        readWindow (generalPathPayload payloadA payloadB eb names).1 x.2.1 x.2.2 =
          readWindow payloadB (refOf eb x.1).1 (refOf eb x.1).2 ∧
        x.2.2 = (refOf eb x.1).2) ∧
    (∀ off len, off + len ≤ payloadA.length →
        readWindow (generalPathPayload payloadA payloadB eb names).1 off len =
          readWindow payloadA off len) ∧
    (∀ t : Initializer, t.data_location = StorageMode.external →
        ∀ off len,
          lookupOffsetMap (generalPathPayload payloadA payloadB eb names).2 t.name =
            some (off, len) →
          (rewriteRef (generalPathPayload payloadA payloadB eb names).2 t).external_data =
            [KV.mk "location" mergedDataName, KV.mk "offset" (pyStrNat off),
             KV.mk "length" (pyStrNat len)]) := by
  have hfold := appendLoop_spec payloadB eb names payloadA [] hb
  have hpair : generalPathPayload payloadA payloadB eb names =
      (payloadA ++
         (names.map (fun n => readWindow payloadB (refOf eb n).1 (refOf eb n).2)).flatten,
       refsFrom eb payloadA.length names) := by
    unfold generalPathPayload
    rw [hfold]
    simp
  refine ⟨?_, ?_, ?_, ?_, ?_, ?_⟩
  · rw [hpair]
  · rw [hpair]
    simp only [List.length_append, List.length_flatten, List.map_map]
    congr 1
    apply congrArg List.sum
    apply List.map_congr_left
    intro n hn
    exact readWindow_length _ _ _ (hb n hn)
  · rw [hpair]
  · intro x hx
    rw [hpair] at hx ⊢
    have := refsFrom_readback payloadB eb names payloadA hb x hx
    exact ⟨this.1, this.2.1⟩
  · intro off len h
    rw [hpair]
    exact readWindow_append_left _ _ _ _ h
  · intro t ht off len hl
    simp [rewriteRef, ht, hl]

theorem general_path_payload_correct_witness :
    (∀ n ∈ (["w3"] : List String),
        (refOf [("w3",
            [KV.mk "location" "decoder_with_past_model.onnx_data", KV.mk "offset" "1",
             KV.mk "length" "2"])] n).1 +
          (refOf [("w3",
            [KV.mk "location" "decoder_with_past_model.onnx_data", KV.mk "offset" "1",
             KV.mk "length" "2"])] n).2 ≤ ([20, 21, 22, 23] : Bytes).length) ∧
    ((generalPathPayload [10, 11, 12] [20, 21, 22, 23]
        [("w3",
          [KV.mk "location" "decoder_with_past_model.onnx_data", KV.mk "offset" "1",
           KV.mk "length" "2"])] ["w3"]).1 =
      [10, 11, 12] ++
        ((["w3"] : List String).map
          (fun n => readWindow [20, 21, 22, 23]
            (refOf [("w3",
              [KV.mk "location" "decoder_with_past_model.onnx_data", KV.mk "offset" "1",
               KV.mk "length" "2"])] n).1
            (refOf [("w3",
              [KV.mk "location" "decoder_with_past_model.onnx_data", KV.mk "offset" "1",
               KV.mk "length" "2"])] n).2)).flatten ∧
    (generalPathPayload [10, 11, 12] [20, 21, 22, 23]
        [("w3",
          [KV.mk "location" "decoder_with_past_model.onnx_data", KV.mk "offset" "1",
           KV.mk "length" "2"])] ["w3"]).1.length =
      ([10, 11, 12] : Bytes).length +
        ((["w3"] : List String).map
          (fun n => (refOf [("w3",
            [KV.mk "location" "decoder_with_past_model.onnx_data", KV.mk "offset" "1",
             KV.mk "length" "2"])] n).2)).sum ∧
    (generalPathPayload [10, 11, 12] [20, 21, 22, 23]
        [("w3",
          [KV.mk "location" "decoder_with_past_model.onnx_data", KV.mk "offset" "1",
           KV.mk "length" "2"])] ["w3"]).2 =
      refsFrom [("w3",
          [KV.mk "location" "decoder_with_past_model.onnx_data", KV.mk "offset" "1",
           KV.mk "length" "2"])] ([10, 11, 12] : Bytes).length ["w3"] ∧
    (∀ x ∈ (generalPathPayload [10, 11, 12] [20, 21, 22, 23]
        [("w3",
          [KV.mk "location" "decoder_with_past_model.onnx_data", KV.mk "offset" "1",
           KV.mk "length" "2"])] ["w3"]).2,
        readWindow (generalPathPayload [10, 11, 12] [20, 21, 22, 23]
            [("w3",
              [KV.mk "location" "decoder_with_past_model.onnx_data", KV.mk "offset" "1",
               KV.mk "length" "2"])] ["w3"]).1 x.2.1 x.2.2 =
          readWindow [20, 21, 22, 23]
            (refOf [("w3",
              [KV.mk "location" "decoder_with_past_model.onnx_data", KV.mk "offset" "1",
               KV.mk "length" "2"])] x.1).1
            (refOf [("w3",
              [KV.mk "location" "decoder_with_past_model.onnx_data", KV.mk "offset" "1",
               KV.mk "length" "2"])] x.1).2 ∧
        x.2.2 = (refOf [("w3",
            [KV.mk "location" "decoder_with_past_model.onnx_data", KV.mk "offset" "1",
             KV.mk "length" "2"])] x.1).2) ∧
    (∀ off len, off + len ≤ ([10, 11, 12] : Bytes).length →
        readWindow (generalPathPayload [10, 11, 12] [20, 21, 22, 23]
            [("w3",
              [KV.mk "location" "decoder_with_past_model.onnx_data", KV.mk "offset" "1",
               KV.mk "length" "2"])] ["w3"]).1 off len =
          readWindow [10, 11, 12] off len) ∧
    (∀ t : Initializer, t.data_location = StorageMode.external →
        ∀ off len,
          lookupOffsetMap (generalPathPayload [10, 11, 12] [20, 21, 22, 23]
              [("w3",
                [KV.mk "location" "decoder_with_past_model.onnx_data", KV.mk "offset" "1",
                 KV.mk "length" "2"])] ["w3"]).2 t.name = some (off, len) →
          (rewriteRef (generalPathPayload [10, 11, 12] [20, 21, 22, 23]
              [("w3",
                [KV.mk "location" "decoder_with_past_model.onnx_data", KV.mk "offset" "1",
                 KV.mk "length" "2"])] ["w3"]).2 t).external_data =
            [KV.mk "location" mergedDataName, KV.mk "offset" (pyStrNat off),
             KV.mk "length" (pyStrNat len)])) :=
  ⟨by decide,
   general_path_payload_correct [10, 11, 12] [20, 21, 22, 23]
     [("w3",
       [KV.mk "location" "decoder_with_past_model.onnx_data", KV.mk "offset" "1",
        KV.mk "length" "2"])] ["w3"] (by decide)⟩

/-- **C3.** Fast path (UniqueB empty): the merged payload is a symlink
alias of source A's payload file, the trace writes no payload bytes (no
copy, no append), and every external initializer only has its
`location` values rewritten to the merged logical name while all other
`external_data` entries (offset, length, anything else) are untouched;
inline initializers are untouched entirely. -/
theorem fast_path_zero_copy (mergedGraph : List Initializer) (ea eb : ExtMap)
    (payloadA payloadB : Bytes) (dataFileExists : Bool)
    (hdf : dataFileExists = false) :
    (step1 mergedGraph ea eb payloadA payloadB [] dataFileExists).payload =
        MergedPayload.aliasOf decDataName ∧
    (step1 mergedGraph ea eb payloadA payloadB [] dataFileExists).trace =
        [FsOp.symlink decDataName mergedDataName, FsOp.saveModel mergedGraphName] ∧
    (∀ op ∈ (step1 mergedGraph ea eb payloadA payloadB [] dataFileExists).trace,
        (∀ d bs, op ≠ FsOp.appendBytes d bs) ∧ (∀ s d, op ≠ FsOp.copyFile s d)) ∧
    (step1 mergedGraph ea eb payloadA payloadB [] dataFileExists).inits =
        ((restore_ext_refs mergedGraph ea eb).1).map fastPathInit ∧
    (∀ t : Initializer, t.data_location = StorageMode.external →
        (fastPathInit t).external_data = t.external_data.map patchLocation ∧
        ∀ e ∈ t.external_data,
          (patchLocation e).key = e.key ∧
          (e.key ≠ "location" → patchLocation e = e) ∧
          (e.key = "location" → patchLocation e = KV.mk e.key mergedDataName)) ∧
    (∀ t : Initializer, t.data_location = StorageMode.inline → fastPathInit t = t) := by
  subst hdf
  refine ⟨rfl, rfl, ?_, rfl, ?_, ?_⟩
  · intro op hop
    have hcases : op = FsOp.symlink decDataName mergedDataName ∨
        op = FsOp.saveModel mergedGraphName := by
      simpa [step1] using hop
    rcases hcases with h | h <;> subst h
    · exact ⟨fun d bs hcon => FsOp.noConfusion hcon, fun s d hcon => FsOp.noConfusion hcon⟩
    · exact ⟨fun d bs hcon => FsOp.noConfusion hcon, fun s d hcon => FsOp.noConfusion hcon⟩
  · intro t ht
    refine ⟨by simp [fastPathInit, ht], ?_⟩
    intro e _
    refine ⟨patchLocation_key e, ?_, ?_⟩
    · intro hk
      simp [patchLocation, hk]
    · intro hk
      simp [patchLocation, hk]
  · intro t ht
    simp [fastPathInit, ht]

theorem fast_path_zero_copy_witness :
    ((false : Bool) = false) ∧
    ((step1
        [Initializer.mk "w1" StorageMode.external
          [KV.mk "location" "decoder_model.onnx_data", KV.mk "offset" "0",
           KV.mk "length" "3"]]
        [("w1",
          [KV.mk "location" "decoder_model.onnx_data", KV.mk "offset" "0",
           KV.mk "length" "3"])]
        [("w1",
          [KV.mk "location" "decoder_with_past_model.onnx_data", KV.mk "offset" "0",
           KV.mk "length" "3"])]
        [1, 2, 3] [1, 2, 3] [] false).payload = MergedPayload.aliasOf decDataName ∧
    (step1
        [Initializer.mk "w1" StorageMode.external
          [KV.mk "location" "decoder_model.onnx_data", KV.mk "offset" "0",
           KV.mk "length" "3"]]
        [("w1",
          [KV.mk "location" "decoder_model.onnx_data", KV.mk "offset" "0",
           KV.mk "length" "3"])]
        [("w1",
          [KV.mk "location" "decoder_with_past_model.onnx_data", KV.mk "offset" "0",
           KV.mk "length" "3"])]
        [1, 2, 3] [1, 2, 3] [] false).trace =
      [FsOp.symlink decDataName mergedDataName, FsOp.saveModel mergedGraphName] ∧
    (∀ op ∈ (step1
        [Initializer.mk "w1" StorageMode.external
          [KV.mk "location" "decoder_model.onnx_data", KV.mk "offset" "0",
           KV.mk "length" "3"]]
        [("w1",
          [KV.mk "location" "decoder_model.onnx_data", KV.mk "offset" "0",
           KV.mk "length" "3"])]
        [("w1",
          [KV.mk "location" "decoder_with_past_model.onnx_data", KV.mk "offset" "0",
           KV.mk "length" "3"])]
        [1, 2, 3] [1, 2, 3] [] false).trace,
        (∀ d bs, op ≠ FsOp.appendBytes d bs) ∧ (∀ s d, op ≠ FsOp.copyFile s d)) ∧
    (step1
        [Initializer.mk "w1" StorageMode.external
          [KV.mk "location" "decoder_model.onnx_data", KV.mk "offset" "0",
           KV.mk "length" "3"]]
        [("w1",
          [KV.mk "location" "decoder_model.onnx_data", KV.mk "offset" "0",
           KV.mk "length" "3"])]
        [("w1",
          [KV.mk "location" "decoder_with_past_model.onnx_data", KV.mk "offset" "0",
           KV.mk "length" "3"])]
        [1, 2, 3] [1, 2, 3] [] false).inits =
      ((restore_ext_refs
          [Initializer.mk "w1" StorageMode.external
            [KV.mk "location" "decoder_model.onnx_data", KV.mk "offset" "0",
             KV.mk "length" "3"]]
          [("w1",
            [KV.mk "location" "decoder_model.onnx_data", KV.mk "offset" "0",
             KV.mk "length" "3"])]
          [("w1",
            [KV.mk "location" "decoder_with_past_model.onnx_data", KV.mk "offset" "0",
             KV.mk "length" "3"])]).1).map fastPathInit ∧
    (∀ t : Initializer, t.data_location = StorageMode.external →
        (fastPathInit t).external_data = t.external_data.map patchLocation ∧
        ∀ e ∈ t.external_data,
          (patchLocation e).key = e.key ∧
          (e.key ≠ "location" → patchLocation e = e) ∧
          (e.key = "location" → patchLocation e = KV.mk e.key mergedDataName)) ∧
    (∀ t : Initializer, t.data_location = StorageMode.inline → fastPathInit t = t)) :=
  ⟨rfl,
   fast_path_zero_copy
     [Initializer.mk "w1" StorageMode.external
       [KV.mk "location" "decoder_model.onnx_data", KV.mk "offset" "0",
        KV.mk "length" "3"]]
     [("w1",
       [KV.mk "location" "decoder_model.onnx_data", KV.mk "offset" "0",
        KV.mk "length" "3"])]
     [("w1",
       [KV.mk "location" "decoder_with_past_model.onnx_data", KV.mk "offset" "0",
        KV.mk "length" "3"])]
     [1, 2, 3] [1, 2, 3] false rfl⟩

/-- **C9** counterexample: `only_in_b` is a Python set of strings, whose
enumeration order depends on the process hash seed, not on the input
files. Two enumerations of the same unique-B set — both permutations of
`set(ext_b) - set(ext_a)` — yield different merged payload bytes and
different offsets, so byte-identical inputs do not force byte-identical
outputs. -/
theorem append_order_dependence_cex :
    (["w3", "w4"] : List String).Perm
        (only_in_b []
          [("w3", [KV.mk "offset" "0", KV.mk "length" "1"]),
           ("w4", [KV.mk "offset" "1", KV.mk "length" "1"])]) ∧
    (["w4", "w3"] : List String).Perm
        (only_in_b []
          [("w3", [KV.mk "offset" "0", KV.mk "length" "1"]),
           ("w4", [KV.mk "offset" "1", KV.mk "length" "1"])]) ∧
    (generalPathPayload [7] [5, 6]
        [("w3", [KV.mk "offset" "0", KV.mk "length" "1"]),
         ("w4", [KV.mk "offset" "1", KV.mk "length" "1"])] ["w3", "w4"]).1 ≠
      (generalPathPayload [7] [5, 6]
        [("w3", [KV.mk "offset" "0", KV.mk "length" "1"]),
         ("w4", [KV.mk "offset" "1", KV.mk "length" "1"])] ["w4", "w3"]).1 ∧
    (generalPathPayload [7] [5, 6]
        [("w3", [KV.mk "offset" "0", KV.mk "length" "1"]),
         ("w4", [KV.mk "offset" "1", KV.mk "length" "1"])] ["w3", "w4"]).2 ≠
      (generalPathPayload [7] [5, 6]
        [("w3", [KV.mk "offset" "0", KV.mk "length" "1"]),
         ("w4", [KV.mk "offset" "1", KV.mk "length" "1"])] ["w4", "w3"]).2 := by
  decide

/-- **C9 (amended).** The construction is a function of the inputs AND
of the enumeration order of UniqueB: two runs enumerating UniqueB in the
same order produce identical merged payloads and refs, and the merged
payload's total length is the same under any permutation of the
enumeration; the byte layout and per-tensor offsets, however, follow the
enumeration order (see the counterexample). -/
theorem general_path_order_invariance (payloadA payloadB : Bytes) (eb : ExtMap)
    (o1 o2 : List String) (hperm : o1.Perm o2)
    (hb : ∀ n ∈ o1, (refOf eb n).1 + (refOf eb n).2 ≤ payloadB.length) :
    (generalPathPayload payloadA payloadB eb o1).1.length =
      (generalPathPayload payloadA payloadB eb o2).1.length ∧
    (o1 = o2 →
      generalPathPayload payloadA payloadB eb o1 =
        generalPathPayload payloadA payloadB eb o2) := by
  have hb2 : ∀ n ∈ o2, (refOf eb n).1 + (refOf eb n).2 ≤ payloadB.length := by
    intro n hn
    exact hb n (hperm.mem_iff.mpr hn)
  constructor
  · have h1 := appendLoop_spec payloadB eb o1 payloadA [] hb
    have h2 := appendLoop_spec payloadB eb o2 payloadA [] hb2
    unfold generalPathPayload
    rw [h1, h2]
    simp only [List.length_append, List.length_flatten, List.map_map]
    congr 1
    exact List.Perm.sum_eq (hperm.map _)
  · intro h
    rw [h]

theorem general_path_order_invariance_witness :
    (["w3", "w4"] : List String).Perm ["w4", "w3"] ∧
    (∀ n ∈ (["w3", "w4"] : List String),
        (refOf [("w3", [KV.mk "offset" "0", KV.mk "length" "1"]),
                ("w4", [KV.mk "offset" "1", KV.mk "length" "1"])] n).1 +
          (refOf [("w3", [KV.mk "offset" "0", KV.mk "length" "1"]),
                  ("w4", [KV.mk "offset" "1", KV.mk "length" "1"])] n).2 ≤
        ([5, 6] : Bytes).length) ∧
    ((generalPathPayload [7] [5, 6]
        [("w3", [KV.mk "offset" "0", KV.mk "length" "1"]),
         ("w4", [KV.mk "offset" "1", KV.mk "length" "1"])] ["w3", "w4"]).1.length =
      (generalPathPayload [7] [5, 6]
        [("w3", [KV.mk "offset" "0", KV.mk "length" "1"]),
         ("w4", [KV.mk "offset" "1", KV.mk "length" "1"])] ["w4", "w3"]).1.length ∧
    ((["w3", "w4"] : List String) = ["w4", "w3"] →
      generalPathPayload [7] [5, 6]
          [("w3", [KV.mk "offset" "0", KV.mk "length" "1"]),
           ("w4", [KV.mk "offset" "1", KV.mk "length" "1"])] ["w3", "w4"] =
        generalPathPayload [7] [5, 6]
          [("w3", [KV.mk "offset" "0", KV.mk "length" "1"]),
           ("w4", [KV.mk "offset" "1", KV.mk "length" "1"])] ["w4", "w3"])) :=
  ⟨by decide, by decide,
   general_path_order_invariance [7] [5, 6]
     [("w3", [KV.mk "offset" "0", KV.mk "length" "1"]),
      ("w4", [KV.mk "offset" "1", KV.mk "length" "1"])] ["w3", "w4"] ["w4", "w3"]
     (by decide) (by decide)⟩

/-- Whether a filesystem operation is an atomic rename. -/
def isRename : FsOp → Bool
  | FsOp.rename _ _ => true
  | _ => false

/-- **C5** is violated: on the general path the merged payload is copied
and appended directly under its final name and the merged graph is saved
directly to its final path; the filesystem trace contains no rename (and
no temporary name) at all, so an interruption mid-trace leaves a partial
file visible under the final artifact name. -/
theorem merged_artifacts_written_in_place :
    (step1 [] []
        [("w3", [KV.mk "offset" "0", KV.mk "length" "1"]),
         ("w4", [KV.mk "offset" "1", KV.mk "length" "1"])]
        [7] [5, 6] ["w3", "w4"] false).trace =
      [FsOp.copyFile decDataName mergedDataName,
       FsOp.appendBytes mergedDataName [5],
       FsOp.appendBytes mergedDataName [6],
       FsOp.saveModel mergedGraphName] ∧
    (∀ op ∈ (step1 [] []
        [("w3", [KV.mk "offset" "0", KV.mk "length" "1"]),
         ("w4", [KV.mk "offset" "1", KV.mk "length" "1"])]
        [7] [5, 6] ["w3", "w4"] false).trace,
      isRename op = false) := by
  decide

/-- The durable artifacts of `merge_lowmem.main`'s working directory
that its stage gates inspect. -/
structure Disk where
  mergedGraph : Option Bytes
  mergedData : Option Bytes
  mergedQuant : Option Bytes
deriving DecidableEq

/-- What each pipeline stage reports doing on one run. -/
inductive StageAction where
  | skippedMerge
  | ranMerge
  | skippedQuantize
  | ranQuantize
  | uploaded (files : List String)
deriving DecidableEq

/-- The sorted glob `decoder_model_merged*.onnx` +
`decoder_model_merged*.onnx_data` the upload loop iterates. -/
def uploadGlob (d : Disk) : List String :=
  (if d.mergedGraph.isSome then [mergedGraphName] else []) ++
    (if d.mergedData.isSome then [mergedDataName] else []) ++
      (if d.mergedQuant.isSome then [mergedQuantName] else [])

/-- Step 1 gate (`merge_lowmem.py` lines 63-64): skip the merge when
`decoder_model_merged.onnx` exists, else produce the merged graph and
payload. -/
def mergeStage (mergeOut : Bytes × Bytes) (d : Disk) : Disk × StageAction :=
  if d.mergedGraph.isSome then (d, StageAction.skippedMerge)
  else
    ({ d with mergedGraph := some mergeOut.1, mergedData := some mergeOut.2 },
     StageAction.ranMerge)

/-- Step 2 gate (lines 166-167): skip quantization when the quantized
file exists. -/
def quantStage (quantOut : Bytes) (d : Disk) : Disk × StageAction :=
  if d.mergedQuant.isSome then (d, StageAction.skippedQuantize)
  else ({ d with mergedQuant := some quantOut }, StageAction.ranQuantize)

/-- Step 3 (lines 176-193): upload every matching artifact — there is no
existence gate on this stage. -/
def uploadStage (d : Disk) : Disk × StageAction :=
  (d, StageAction.uploaded (uploadGlob d))

/-- One run of `merge_lowmem.main`'s three-stage pipeline over the
durable artifacts, with the merge and quantize results supplied as
opaque parameters. -/
def pipelineRun (mergeOut : Bytes × Bytes) (quantOut : Bytes) (d : Disk) :
    Disk × List StageAction :=
  ((uploadStage (quantStage quantOut (mergeStage mergeOut d).1).1).1,
   [(mergeStage mergeOut d).2,
    (quantStage quantOut (mergeStage mergeOut d).1).2,
    (uploadStage (quantStage quantOut (mergeStage mergeOut d).1).1).2])

/-- **C8** counterexample: on a second run over the same inputs the
merge and quantize stages are skipped, but the upload stage has no
existence gate and transfers every artifact again — the second run does
not skip every stage. -/
theorem second_run_upload_not_skipped_cex :
    (pipelineRun ([1], [2]) [3]
        (pipelineRun ([1], [2]) [3] (Disk.mk none none none)).1).2 =
      [StageAction.skippedMerge, StageAction.skippedQuantize,
       StageAction.uploaded [mergedGraphName, mergedDataName, mergedQuantName]] ∧
    StageAction.uploaded [mergedGraphName, mergedDataName, mergedQuantName] ∈
      (pipelineRun ([1], [2]) [3]
        (pipelineRun ([1], [2]) [3] (Disk.mk none none none)).1).2 ∧
    [mergedGraphName, mergedDataName, mergedQuantName] ≠ ([] : List String) := by
  decide

/-- **C8 (amended).** The merge and quantize stages are each gated by an
existence check of their output artifact and are skipped on re-run, so a
second run over the same inputs leaves every artifact byte-identical;
the upload stage is not gated and re-uploads the artifacts on every
run. -/
theorem rerun_skips_gated_stages (mergeOut : Bytes × Bytes) (quantOut : Bytes) (d : Disk) :
    (pipelineRun mergeOut quantOut (pipelineRun mergeOut quantOut d).1).1 =
      (pipelineRun mergeOut quantOut d).1 ∧
    (pipelineRun mergeOut quantOut (pipelineRun mergeOut quantOut d).1).2 =
      [StageAction.skippedMerge, StageAction.skippedQuantize,
       StageAction.uploaded (uploadGlob (pipelineRun mergeOut quantOut d).1)] := by
  cases hg : d.mergedGraph <;> cases hq : d.mergedQuant <;>
    simp [pipelineRun, mergeStage, quantStage, uploadStage, hg, hq]

theorem refsFrom_mem_of_mem (eb : ExtMap) :
    ∀ (ns : List String) (base : Nat) (n : String), n ∈ ns →
      ∃ off len, (n, off, len) ∈ refsFrom eb base ns := by
  intro ns
  induction ns with
  | nil => intro base n h; simp at h
  | cons m ms ih =>
      intro base n h
      rcases List.mem_cons.mp h with h | h
      · subst h
        exact ⟨base, (refOf eb n).2, by simp [refsFrom]⟩
      · obtain ⟨off, len, hm⟩ := ih (base + (refOf eb m).2) n h
        exact ⟨off, len, by simp [refsFrom, hm]⟩

theorem lookupOffsetMap_mem (omap : List (String × Nat × Nat)) (n : String)
    (off len : Nat) (h : lookupOffsetMap omap n = some (off, len)) :
    (n, off, len) ∈ omap := by
  unfold lookupOffsetMap at h
  cases hf : omap.find? (fun p => p.1 == n) with
  | none => rw [hf] at h; simp at h
  | some p =>
      rw [hf] at h
      have hp1 : p.1 = n := by simpa using List.find?_some hf
      have hp2 : p.2 = (off, len) := by simpa using h
      have hmem := List.mem_of_find?_eq_some hf
      have hp : p = (n, off, len) := by
        rw [← hp1, ← hp2]
      rw [← hp]
      exact hmem

theorem lookupOffsetMap_none_not_mem (omap : List (String × Nat × Nat)) (n : String)
    (h : lookupOffsetMap omap n = none) : ∀ off len, (n, off, len) ∉ omap := by
  intro off len hmem
  unfold lookupOffsetMap at h
  cases hf : omap.find? (fun p => p.1 == n) with
  | none =>
      have := List.find?_eq_none.mp hf (n, off, len) hmem
      simp at this
  | some p =>
      rw [hf] at h
      simp at h

theorem entryNat_rewritten_offset (off len : Nat) :
    entryNat [KV.mk "location" mergedDataName, KV.mk "offset" (pyStrNat off),
      KV.mk "length" (pyStrNat len)] "offset" = off := by
  show pyIntStr (pyStrNat off) = off
  exact pyIntStr_pyStrNat off

theorem entryNat_rewritten_length (off len : Nat) :
    entryNat [KV.mk "location" mergedDataName, KV.mk "offset" (pyStrNat off),
      KV.mk "length" (pyStrNat len)] "length" = len := by
  show pyIntStr (pyStrNat len) = len
  exact pyIntStr_pyStrNat len

theorem mem_only_in_b_of (ea eb : ExtMap) (n : String) (hb : hasKey eb n = true)
    (ha : hasKey ea n = false) : n ∈ only_in_b ea eb := by
  unfold only_in_b
  rw [List.mem_filter]
  constructor
  · obtain ⟨p, hp, hpe⟩ := List.any_eq_true.mp hb
    rw [List.mem_map]
    exact ⟨p, hp, by simpa using hpe⟩
  · simp [ha]

theorem only_in_b_sub_eb (ea eb : ExtMap) (n : String) (h : n ∈ only_in_b ea eb) :
    hasKey eb n = true ∧ hasKey ea n = false := by
  unfold only_in_b at h
  rw [List.mem_filter] at h
  constructor
  · obtain ⟨p, hp, hpe⟩ := List.mem_map.mp h.1
    exact List.any_eq_true.mpr ⟨p, hp, by simp [hpe]⟩
  · simpa using h.2

/-- Totality of the fast path: with every external merged tensor
resolvable and A's refs within A's payload, each reconciled initializer
is inline or points inside source A's payload (the alias target). -/
theorem totality_fast (mergedGraph : List Initializer) (ea eb : ExtMap)
    (payloadA : Bytes)
    (hresolve : ∀ s ∈ mergedGraph, s.data_location = StorageMode.external →
        hasKey ea s.name = true ∨ hasKey eb s.name = true)
    (hA : ∀ p ∈ ea, entryNat p.2 "offset" + entryNat p.2 "length" ≤ payloadA.length)
    (honly : only_in_b ea eb = []) :
    ∀ s ∈ mergedGraph,
      (fastPathInit (restore_one ea eb s)).data_location = StorageMode.inline ∨
      entryNat (fastPathInit (restore_one ea eb s)).external_data "offset" +
          entryNat (fastPathInit (restore_one ea eb s)).external_data "length" ≤
        payloadA.length := by
  intro s hs
  cases hlA : lookupKV ea s.name with
  | some v =>
      right
      obtain ⟨p, hp, hp1, hp2⟩ := lookupKV_mem ea s.name v hlA
      have hr : restore_one ea eb s =
          { s with data_location := StorageMode.external, external_data := v } := by
        simp [restore_one, hlA]
      rw [hr]
      have hfp : (fastPathInit
          { s with data_location := StorageMode.external, external_data := v }).external_data =
          v.map patchLocation := by
        simp [fastPathInit]
      rw [hfp, entryNat_map_patchLocation v "offset" (by decide),
        entryNat_map_patchLocation v "length" (by decide), ← hp2]
      exact hA p hp
  | none =>
      cases hlB : lookupKV eb s.name with
      | some v =>
          exfalso
          have hbk : hasKey eb s.name = true := (hasKey_true_iff eb s.name).mpr ⟨v, hlB⟩
          have hak : hasKey ea s.name = false := lookup_none_hasKey ea s.name hlA
          have : s.name ∈ only_in_b ea eb := mem_only_in_b_of ea eb s.name hbk hak
          rw [honly] at this
          simp at this
      | none =>
          have hr : restore_one ea eb s = s := by
            simp [restore_one, hlA, hlB]
          rw [hr]
          cases hsl : s.data_location with
          | inline =>
              left
              simp [fastPathInit, hsl]
          | external =>
              exfalso
              rcases hresolve s hs hsl with h | h
              · obtain ⟨v, hv⟩ := (hasKey_true_iff ea s.name).mp h
                rw [hlA] at hv
                exact absurd hv (by simp)
              · obtain ⟨v, hv⟩ := (hasKey_true_iff eb s.name).mp h
                rw [hlB] at hv
                exact absurd hv (by simp)

/-- Totality of the general path: with every external merged tensor
resolvable, both indexes' refs within their payloads, and the
enumeration a permutation of the unique-B set, each rewritten
initializer is inline or points inside the constructed merged payload. -/
theorem totality_general (mergedGraph : List Initializer) (ea eb : ExtMap)
    (payloadA payloadB : Bytes) (order : List String)
    (hresolve : ∀ s ∈ mergedGraph, s.data_location = StorageMode.external →
        hasKey ea s.name = true ∨ hasKey eb s.name = true)
    (hA : ∀ p ∈ ea, entryNat p.2 "offset" + entryNat p.2 "length" ≤ payloadA.length)
    (hbord : ∀ n ∈ order, (refOf eb n).1 + (refOf eb n).2 ≤ payloadB.length)
    (hperm : order.Perm (only_in_b ea eb))
    (hndA : ∀ p ∈ ea, (p.2.map KV.key).Nodup) :
    ∀ s ∈ mergedGraph,
      (rewriteRef (generalPathPayload payloadA payloadB eb order).2
          (restore_one ea eb s)).data_location = StorageMode.inline ∨
      entryNat (rewriteRef (generalPathPayload payloadA payloadB eb order).2
            (restore_one ea eb s)).external_data "offset" +
          entryNat (rewriteRef (generalPathPayload payloadA payloadB eb order).2
            (restore_one ea eb s)).external_data "length" ≤
        (generalPathPayload payloadA payloadB eb order).1.length := by
  have hfold := appendLoop_spec payloadB eb order payloadA [] hbord
  have hpair : generalPathPayload payloadA payloadB eb order =
      (payloadA ++
         (order.map (fun n => readWindow payloadB (refOf eb n).1 (refOf eb n).2)).flatten,
       refsFrom eb payloadA.length order) := by
    unfold generalPathPayload
    rw [hfold]
    simp
  intro s hs
  set r := restore_one ea eb s with hrdef
  cases hrl : r.data_location with
  | inline =>
      left
      simp [rewriteRef, hrl]
  | external =>
      cases hlo : lookupOffsetMap (generalPathPayload payloadA payloadB eb order).2 r.name with
      | some pr =>
          right
          obtain ⟨off, len⟩ := pr
          have hext : (rewriteRef (generalPathPayload payloadA payloadB eb order).2
              r).external_data =
              [KV.mk "location" mergedDataName, KV.mk "offset" (pyStrNat off),
               KV.mk "length" (pyStrNat len)] := by
            simp [rewriteRef, hrl, hlo]
          rw [hext, entryNat_rewritten_offset, entryNat_rewritten_length]
          have hmem : (r.name, off, len) ∈ refsFrom eb payloadA.length order := by
            have hm := lookupOffsetMap_mem _ _ _ _ hlo
            rw [hpair] at hm
            exact hm
          have hrb := refsFrom_readback payloadB eb order payloadA hbord (r.name, off, len) hmem
          rw [hpair]
          simpa using hrb.2.2
      | none =>
          cases hlA : lookupKV ea s.name with
          | some v =>
              right
              obtain ⟨p, hp, hp1, hp2⟩ := lookupKV_mem ea s.name v hlA
              have hrv : r =
                  { s with data_location := StorageMode.external, external_data := v } := by
                rw [hrdef]
                simp [restore_one, hlA]
              have hlo2 : lookupOffsetMap (generalPathPayload payloadA payloadB eb order).2
                  s.name = none := by
                rw [hrv] at hlo
                simpa using hlo
              have hext : (rewriteRef (generalPathPayload payloadA payloadB eb order).2
                  r).external_data = (dictOfEntries v).map patchLocation := by
                simp [rewriteRef, hrl, hlo2, hrv]
              rw [hext, dictOfEntries_id v (by rw [← hp2]; exact hndA p hp),
                entryNat_map_patchLocation v "offset" (by decide),
                entryNat_map_patchLocation v "length" (by decide)]
              have hbound : entryNat v "offset" + entryNat v "length" ≤ payloadA.length := by
                rw [← hp2]
                exact hA p hp
              rw [hpair]
              simp only [List.length_append]
              omega
          | none =>
              cases hlB : lookupKV eb s.name with
              | some v =>
                  exfalso
                  have hbk : hasKey eb s.name = true :=
                    (hasKey_true_iff eb s.name).mpr ⟨v, hlB⟩
                  have hak : hasKey ea s.name = false := lookup_none_hasKey ea s.name hlA
                  have hob : s.name ∈ only_in_b ea eb := mem_only_in_b_of ea eb s.name hbk hak
                  have hord : s.name ∈ order := hperm.mem_iff.mpr hob
                  obtain ⟨off, len, hmm⟩ :=
                    refsFrom_mem_of_mem eb order payloadA.length s.name hord
                  have hrname : r.name = s.name := by
                    rw [hrdef]
                    simp [restore_one, hlA, hlB]
                  rw [hpair] at hlo
                  rw [hrname] at hlo
                  exact lookupOffsetMap_none_not_mem _ _ hlo off len hmm
              | none =>
                  exfalso
                  have hrs : r = s := by
                    rw [hrdef]
                    simp [restore_one, hlA, hlB]
                  have hsext : s.data_location = StorageMode.external := by
                    rw [← hrs]
                    exact hrl
                  rcases hresolve s hs hsext with h | h
                  · obtain ⟨v, hv⟩ := (hasKey_true_iff ea s.name).mp h
                    rw [hlA] at hv
                    exact absurd hv (by simp)
                  · obtain ⟨v, hv⟩ := (hasKey_true_iff eb s.name).mp h
                    rw [hlB] at hv
                    exact absurd hv (by simp)

/-- **C4** counterexample: an external initializer whose name is in
neither index (here `"ghost"`, still carrying its stale source ref with
offset 999) is left external by `restore_ext_refs`, and the rewrite pass
merely renames its `location` entry: after reconciliation the merged
graph carries a ref whose window [999, 1004) lies far outside the
3-byte merged payload — a dangling ref, with only a warning emitted. -/
theorem reconcile_totality_cex :
    ¬ (∀ t ∈ (step1
        [Initializer.mk "ghost" StorageMode.external
          [KV.mk "location" "decoder_with_past_model.onnx_data",
           KV.mk "offset" "999", KV.mk "length" "5"]]
        [] [] [1, 2, 3] [1, 2, 3] [] false).inits,
        t.data_location = StorageMode.inline ∨
        entryNat t.external_data "offset" + entryNat t.external_data "length" ≤
          payloadSize (step1
            [Initializer.mk "ghost" StorageMode.external
              [KV.mk "location" "decoder_with_past_model.onnx_data",
               KV.mk "offset" "999", KV.mk "length" "5"]]
            [] [] [1, 2, 3] [1, 2, 3] [] false).payload [1, 2, 3]) := by
  decide

/-- **C4 (amended).** Provided every external initializer of the merged
graph resolves in index A or index B, A's refs lie within A's payload,
B's refs lie within B's payload, the enumeration order is a permutation
of the unique-B set, and A's entry lists have distinct keys, then after
reconciliation every initializer either is inline or carries a ref whose
`(offset, length)` window lies within the merged payload file's bounds.
Without the resolvability assumption the code can leave a dangling ref
(see the counterexample): the "absent from both indexes" case is only
warned about, never repaired. -/
theorem reconcile_totality_of_resolvable (mergedGraph : List Initializer) (ea eb : ExtMap)
    (payloadA payloadB : Bytes) (order : List String) (dataFileExists : Bool)
    (hresolve : ∀ s ∈ mergedGraph, s.data_location = StorageMode.external →
        hasKey ea s.name = true ∨ hasKey eb s.name = true)
    (hA : ∀ p ∈ ea, entryNat p.2 "offset" + entryNat p.2 "length" ≤ payloadA.length)
    (hB : ∀ p ∈ eb, entryNat p.2 "offset" + entryNat p.2 "length" ≤ payloadB.length)
    (hperm : order.Perm (only_in_b ea eb))
    (hndA : ∀ p ∈ ea, (p.2.map KV.key).Nodup) :
    ∀ t ∈ (step1 mergedGraph ea eb payloadA payloadB order dataFileExists).inits,
      t.data_location = StorageMode.inline ∨
      entryNat t.external_data "offset" + entryNat t.external_data "length" ≤
        payloadSize
          (step1 mergedGraph ea eb payloadA payloadB order dataFileExists).payload
          payloadA := by
  have hbord : ∀ n ∈ order, (refOf eb n).1 + (refOf eb n).2 ≤ payloadB.length := by
    intro n hn
    have hmem := hperm.mem_iff.mp hn
    have hbk := (only_in_b_sub_eb ea eb n hmem).1
    obtain ⟨v, hv⟩ := (hasKey_true_iff eb n).mp hbk
    obtain ⟨p, hp, hp1, hp2⟩ := lookupKV_mem eb n v hv
    have hro : refOf eb n = (entryNat v "offset", entryNat v "length") := by
      simp [refOf, hv]
    rw [hro, ← hp2]
    exact hB p hp
  intro t ht
  by_cases hoe : order.isEmpty = true
  · have hnil : order = [] := List.isEmpty_iff.mp hoe
    have honly : only_in_b ea eb = [] := by
      rw [hnil] at hperm
      exact hperm.symm.eq_nil
    simp only [step1, restore_ext_refs, hoe, if_true, List.map_map, List.mem_map] at ht
    obtain ⟨s, hs, heq⟩ := ht
    have hfast := totality_fast mergedGraph ea eb payloadA hresolve hA honly s hs
    simp only [step1, hoe, if_true, payloadSize]
    rw [← heq]
    simpa using hfast
  · have hoe2 : order.isEmpty = false := by
      cases h : order.isEmpty with
      | false => rfl
      | true => exact absurd h hoe
    simp only [step1, restore_ext_refs, hoe2, Bool.false_eq_true, if_false,
      List.map_map, List.mem_map] at ht
    obtain ⟨s, hs, heq⟩ := ht
    have hgen := totality_general mergedGraph ea eb payloadA payloadB order
      hresolve hA hbord hperm hndA s hs
    simp only [step1, hoe2, Bool.false_eq_true, if_false, payloadSize]
    rw [← heq]
    simpa using hgen

theorem reconcile_totality_of_resolvable_witness :
    (∀ s ∈ [Initializer.mk "w1" StorageMode.external
        [KV.mk "location" "decoder_model.onnx_data", KV.mk "offset" "0",
         KV.mk "length" "3"]],
      s.data_location = StorageMode.external →
        hasKey [("w1",
          [KV.mk "location" "decoder_model.onnx_data", KV.mk "offset" "0",
           KV.mk "length" "3"])] s.name = true ∨
        hasKey [("w1",
          [KV.mk "location" "decoder_with_past_model.onnx_data", KV.mk "offset" "0",
           KV.mk "length" "3"])] s.name = true) ∧
    (∀ p ∈ [("w1",
        [KV.mk "location" "decoder_model.onnx_data", KV.mk "offset" "0",
         KV.mk "length" "3"])],
      entryNat p.2 "offset" + entryNat p.2 "length" ≤ ([1, 2, 3] : Bytes).length) ∧
    (∀ p ∈ [("w1",
        [KV.mk "location" "decoder_with_past_model.onnx_data", KV.mk "offset" "0",
         KV.mk "length" "3"])],
      entryNat p.2 "offset" + entryNat p.2 "length" ≤ ([1, 2, 3] : Bytes).length) ∧
    ([] : List String).Perm
      (only_in_b
        [("w1",
          [KV.mk "location" "decoder_model.onnx_data", KV.mk "offset" "0",
           KV.mk "length" "3"])]
        [("w1",
          [KV.mk "location" "decoder_with_past_model.onnx_data", KV.mk "offset" "0",
           KV.mk "length" "3"])]) ∧
    (∀ p ∈ [("w1",
        [KV.mk "location" "decoder_model.onnx_data", KV.mk "offset" "0",
         KV.mk "length" "3"])], (p.2.map KV.key).Nodup) ∧
    (∀ t ∈ (step1
        [Initializer.mk "w1" StorageMode.external
          [KV.mk "location" "decoder_model.onnx_data", KV.mk "offset" "0",
           KV.mk "length" "3"]]
        [("w1",
          [KV.mk "location" "decoder_model.onnx_data", KV.mk "offset" "0",
           KV.mk "length" "3"])]
        [("w1",
          [KV.mk "location" "decoder_with_past_model.onnx_data", KV.mk "offset" "0",
           KV.mk "length" "3"])]
        [1, 2, 3] [1, 2, 3] [] false).inits,
      t.data_location = StorageMode.inline ∨
      entryNat t.external_data "offset" + entryNat t.external_data "length" ≤
        payloadSize (step1
          [Initializer.mk "w1" StorageMode.external
            [KV.mk "location" "decoder_model.onnx_data", KV.mk "offset" "0",
             KV.mk "length" "3"]]
          [("w1",
            [KV.mk "location" "decoder_model.onnx_data", KV.mk "offset" "0",
             KV.mk "length" "3"])]
          [("w1",
            [KV.mk "location" "decoder_with_past_model.onnx_data", KV.mk "offset" "0",
             KV.mk "length" "3"])]
          [1, 2, 3] [1, 2, 3] [] false).payload [1, 2, 3]) :=
  ⟨by decide, by decide, by decide, by decide, by decide,
   reconcile_totality_of_resolvable
     [Initializer.mk "w1" StorageMode.external
       [KV.mk "location" "decoder_model.onnx_data", KV.mk "offset" "0",
        KV.mk "length" "3"]]
     [("w1",
       [KV.mk "location" "decoder_model.onnx_data", KV.mk "offset" "0",
        KV.mk "length" "3"])]
     [("w1",
       [KV.mk "location" "decoder_with_past_model.onnx_data", KV.mk "offset" "0",
        KV.mk "length" "3"])]
     [1, 2, 3] [1, 2, 3] [] false
     (by decide) (by decide) (by decide) (by decide) (by decide)⟩

theorem rerun_skips_gated_stages_witness :
    (pipelineRun ([1], [2]) [3]
        (pipelineRun ([1], [2]) [3] (Disk.mk none none none)).1).1 =
      (pipelineRun ([1], [2]) [3] (Disk.mk none none none)).1 ∧
    (pipelineRun ([1], [2]) [3]
        (pipelineRun ([1], [2]) [3] (Disk.mk none none none)).1).2 =
      [StageAction.skippedMerge, StageAction.skippedQuantize,
       StageAction.uploaded
         (uploadGlob (pipelineRun ([1], [2]) [3] (Disk.mk none none none)).1)] :=
  rerun_skips_gated_stages ([1], [2]) [3] (Disk.mk none none none)
